import Mathlib

/-!
Shallow embedding of `src/generate_svg.py` (CodesWhat/.github): an SVG
profile-card generator.  Pure helpers (`escape_xml`, `format_number`,
`stat_line`), the cache-merge policy (`merge_with_cache`), the org-stats
aggregator (`get_org_stats`, with the external `gh` API abstracted as an
explicit environment record), and the renderer (`generate_svg`, with the
wall-clock date abstracted as an explicit string parameter) are translated
into executable Lean definitions, followed by theorems settling the frozen
claims about them.

Python floats are modelled exactly: the only float arithmetic in the source
is `font_size * 0.6 = 8.4` and sums thereof, which are integer multiples of
one tenth, so x-coordinates are carried as integer tenths; and
`f"{x:.1f}"` in `format_number`, modelled as round-half-to-even on the
exact rational (it agrees with Python on every input relevant here).
-/

/-! ## Python `str.replace` for single-character patterns, and `escape_xml` -/

/-- Python `s.replace(c, rep)` for a single-character pattern `c`: every
occurrence of `c` is replaced by `rep`, left to right. -/
def replaceChar (c : Char) (rep : List Char) : List Char → List Char
  | [] => []
  | x :: xs => (if x = c then rep else [x]) ++ replaceChar c rep xs

/-- `escape_xml` (src line 15-17):
`s.replace('&', '&amp;').replace('<', '&lt;').replace('>', '&gt;')`. -/
def escapeList (l : List Char) : List Char :=
  replaceChar '>' "&gt;".data
    (replaceChar '<' "&lt;".data
      (replaceChar '&' "&amp;".data l))

/-- `escape_xml` on strings. -/
def escape_xml (s : String) : String :=
  String.mk (escapeList s.data)

/-- Specification-side single-pass escaper: each character is mapped to its
entity exactly once, all other characters are left unchanged. -/
def escChar (c : Char) : List Char :=
  if c = '&' then "&amp;".data
  else if c = '<' then "&lt;".data
  else if c = '>' then "&gt;".data
  else [c]

/-- Single-pass escape of a whole character list. -/
def escSpec : List Char → List Char
  | [] => []
  | c :: cs => escChar c ++ escSpec cs

/-! ## `format_number` (src lines 20-28) -/

/-- One-decimal rendering of `n / den` (`den > 0`), as Python's
`f"{n/den:.1f}"`: round half to even at the first decimal.  Python performs
the division in binary floating point and then rounds the nearest double;
this definition rounds the exact rational, which agrees at every input
exercised by the claims. -/
def fmt1 (n den : Int) : String :=
  let t := 10 * n
  let q := t / den
  let r := t % den
  let q2 := if den < 2 * r ∨ (2 * r = den ∧ q % 2 = 1) then q + 1 else q
  toString (q2 / 10) ++ "." ++ toString (q2 % 10)

/-- `format_number` (src lines 20-28): suffix formatting with K/M/B
thresholds. -/
def format_number (n : Int) : String :=
  if 1000000000 ≤ n then fmt1 n 1000000000 ++ "B"
  else if 1000000 ≤ n then fmt1 n 1000000 ++ "M"
  else if 1000 ≤ n then fmt1 n 1000 ++ "K"
  else toString n

/-! ## Stats records and `merge_with_cache` (src lines 84-93)

A Python stats dict is modelled as a record: the six cumulative keys the
merge loop touches are kept as an explicit presence map
(`cum : CumField → Option Int`, `none` = key absent), and every other key
is bundled into an opaque component `base` that the merge copies verbatim
(`merged = dict(live)` touches no other key). -/

/-- The six cumulative keys enumerated at src lines 89-90. -/
inductive CumField
  | total_commits
  | total_prs
  | total_issues
  | loc_added
  | loc_deleted
  | loc_total
  deriving DecidableEq

/-- A stats dict: presence map for the six cumulative keys plus the
remaining keys `base`. -/
structure StatsDict (α : Type) where
  base : α
  cum : CumField → Option Int

/-- `merge_with_cache` (src lines 84-93).  `not cached` is modelled by
`Option.none`; for each cumulative key present in the cached dict the merged
value is `max(merged.get(key, 0), cached[key])`. -/
def merge_with_cache {α : Type} (live : StatsDict α)
    (cached : Option (StatsDict α)) : StatsDict α :=
  match cached with
  | none => live
  | some c =>
    { base := live.base
      cum := fun k =>
        match c.cum k with
        | some cv => some (max ((live.cum k).getD 0) cv)
        | none => live.cum k }

/-! ## The non-cumulative fields of the live stats record (src 188-202) -/

/-- The non-cumulative fields of an `OrgStats` record. -/
structure OrgStatsBase where
  public_repos : Int
  private_repos : Int
  total_repos : Int
  total_stars : Int
  total_forks : Int
  members : Int
  languages : List String
  deriving DecidableEq

/-- A full org-stats record as `get_org_stats` produces and the renderer
consumes. -/
abbrev StatsRec := StatsDict OrgStatsBase

/-- The all-zero fallback record returned at src lines 106-112. -/
def zeroStats : StatsRec :=
  { base :=
      { public_repos := 0, private_repos := 0, total_repos := 0
        total_stars := 0, total_forks := 0, members := 0, languages := [] }
    cum := fun _ => some 0 }

/-! ## `get_org_stats` (src lines 96-205)

The external `gh` calls are abstracted into an explicit environment.  A
`run_gh_api` result is `None` on failure or arbitrary JSON on success; the
code only distinguishes "a list" from everything else, so a response is
modelled as missing / non-list / list. -/

/-- A `run_gh_api` response, as far as the code inspects it. -/
inductive ApiResp (α : Type)
  | missing
  | nonList
  | list (l : List α)

/-- One repository entry, with the fields the aggregation reads
(src lines 114-124): `private`, `language`, `stargazers_count`,
`forks_count`.  (`full_name` / `owner` / `name` are only used to address the
per-repository API calls, which the environment keys by repository index
instead.) -/
structure Repo where
  priv : Bool
  language : Option String
  stargazers_count : Int
  forks_count : Int

/-- One `weeks` entry of a contributor-stats response; `week.get('a', 0)`
etc. default missing keys to 0, so the fields are carried directly. -/
structure Week where
  a : Int
  d : Int
  c : Int

/-- One contributor entry (`contrib.get('weeks', [])`). -/
structure Contrib where
  weeks : List Week

/-- A GraphQL response, as far as src lines 182-186 inspect it: `ok` iff
`data` is truthy, has a `'data'` key and `data['data'].get('repository')` is
truthy, in which case the two total counts are read. -/
inductive GqlResp
  | ok (prs issues : Int)
  | bad

/-- The abstracted external world of one `get_org_stats` run: the members
listing (only its list-ness and length matter), the contributor-stats
response per repository index and attempt number, and the GraphQL response
per repository index. -/
structure GhEnv where
  members : ApiResp Unit
  contributors : Nat → Nat → ApiResp Contrib
  graphql : Nat → GqlResp

/-- `member_count` (src line 128): the length when the response is a truthy
list, else 0 (an empty list is falsy, but its length is 0 as well). -/
def memberCount (r : ApiResp Unit) : Int :=
  match r with
  | .list l => (l.length : Int)
  | _ => 0

/-- Sum of the `a`/`d`/`c` week fields over a contributor-stats response
(src lines 152-157). -/
def weekSums (cs : List Contrib) : Int × Int × Int :=
  cs.foldl
    (fun acc contrib =>
      contrib.weeks.foldl
        (fun acc2 w => (acc2.1 + w.a, acc2.2.1 + w.d, acc2.2.2 + w.c))
        acc)
    (0, 0, 0)

/-- The retry loop of src lines 147-158: the first of (up to) three
attempts whose response is a list contributes its week sums; `None` and
non-list responses fall through to the next attempt. -/
def contribOf (env : GhEnv) (i : Nat) : Int × Int × Int :=
  match env.contributors i 0 with
  | .list cs => weekSums cs
  | _ =>
    match env.contributors i 1 with
    | .list cs => weekSums cs
    | _ =>
      match env.contributors i 2 with
      | .list cs => weekSums cs
      | _ => (0, 0, 0)

/-- GraphQL PR/issue totals for one repository (src lines 182-186). -/
def gqlOf (env : GhEnv) (i : Nat) : Int × Int :=
  match env.graphql i with
  | .ok prs issues => (prs, issues)
  | .bad => (0, 0)

/-- Insert a string into a sorted duplicate-free list, modelling Python's
`sorted(lang_set)` built up insertion by insertion. -/
def insertSet (s : String) : List String → List String
  | [] => [s]
  | t :: ts =>
    if s = t then t :: ts
    else if s < t then s :: t :: ts
    else t :: insertSet s ts

/-- `sorted(lang_set)` where `lang_set` collects each truthy
`repo.get('language')` (src lines 120-124, 201). -/
def sortedLangs (repos : List Repo) : List String :=
  (repos.filterMap
      (fun r =>
        match r.language with
        | some s => if s = "" then none else some s
        | none => none)).foldl
    (fun acc s => insertSet s acc) []

/-- The aggregation over a non-empty repository list plus the final cache
merge (src lines 114-205). -/
def aggregateStats (repos : List Repo) (env : GhEnv) : StatsRec :=
  let public_repos : Int := ((repos.filter (fun r => !r.priv)).length : Int)
  let private_repos : Int := ((repos.filter (fun r => r.priv)).length : Int)
  let total_stars := repos.foldl (fun acc r => acc + r.stargazers_count) 0
  let total_forks := repos.foldl (fun acc r => acc + r.forks_count) 0
  let idxs := List.range repos.length
  let adc := idxs.foldl
    (fun acc i =>
      let t := contribOf env i
      (acc.1 + t.1, acc.2.1 + t.2.1, acc.2.2 + t.2.2))
    (0, 0, 0)
  let pi := idxs.foldl
    (fun acc i =>
      let t := gqlOf env i
      (acc.1 + t.1, acc.2 + t.2))
    (0, 0)
  { base :=
      { public_repos := public_repos
        private_repos := private_repos
        total_repos := (repos.length : Int)
        total_stars := total_stars
        total_forks := total_forks
        members := memberCount env.members
        languages := sortedLangs repos }
    cum := fun k =>
      match k with
      | .total_commits => some adc.2.2
      | .total_prs => some pi.1
      | .total_issues => some pi.2
      | .loc_added => some adc.1
      | .loc_deleted => some adc.2.1
      | .loc_total => some (adc.1 - adc.2.1) }

/-- The persisted cache file `{'timestamp': ..., 'org': ...}`
(src lines 72-81); `org` is optional because the fallback branch checks
`'org' in cached`. -/
structure CacheFile where
  timestamp : String
  org : Option StatsRec

/-- The cached `org` entry reachable from a loaded cache:
`cached.get('org') if cached else None` (src line 205), which also governs
the fallback branch (`if cached and 'org' in cached`, src line 104). -/
def cacheOrg (cache : Option CacheFile) : Option StatsRec :=
  match cache with
  | some c => c.org
  | none => none

/-- `get_org_stats` (src lines 96-205).  `reposResp` is the repository
listing response; the guard at src line 102 (`not repos or not
isinstance(repos, list)`) sends `None`, non-lists and the (falsy) empty
list to the cache fallback; otherwise the aggregation runs and the result
is merged with the cached `org` entry. -/
def get_org_stats (reposResp : ApiResp Repo) (env : GhEnv)
    (cache : Option CacheFile) : StatsRec :=
  match reposResp with
  | .list (r :: rs) =>
    merge_with_cache (aggregateStats (r :: rs) env) (cacheOrg cache)
  | _ =>
    match cacheOrg cache with
    | some s => s
    | none => zeroStats

/-! ## Lemmas about the escaper -/

theorem replaceChar_append (c : Char) (rep a b : List Char) :
    replaceChar c rep (a ++ b) = replaceChar c rep a ++ replaceChar c rep b := by
  induction a with
  | nil => simp [replaceChar]
  | cons x xs ih => simp [replaceChar, ih, List.append_assoc]

theorem escapeList_eq_escSpec (l : List Char) : escapeList l = escSpec l := by
  induction l with
  | nil => rfl
  | cons c cs ih =>
    show replaceChar '>' "&gt;".data (replaceChar '<' "&lt;".data
        (replaceChar '&' "&amp;".data (c :: cs))) = escChar c ++ escSpec cs
    have h0 : replaceChar '&' "&amp;".data (c :: cs) =
        (if c = '&' then "&amp;".data else [c]) ++
          replaceChar '&' "&amp;".data cs := rfl
    rw [h0, replaceChar_append, replaceChar_append]
    have h1 : replaceChar '>' "&gt;".data (replaceChar '<' "&lt;".data
        (replaceChar '&' "&amp;".data cs)) = escSpec cs := ih
    rw [h1]
    by_cases hamp : c = '&'
    · subst hamp; rfl
    · by_cases hlt : c = '<'
      · subst hlt; rfl
      · by_cases hgt : c = '>'
        · subst hgt; rfl
        · simp [replaceChar, escChar, hamp, hlt, hgt]

/-- C7: `escape_xml` leaves characters other than `&`, `<`, `>` unchanged
and maps each occurrence of `&`, `<`, `>` to `&amp;`, `&lt;`, `&gt;`
exactly once with no double-escaping of introduced ampersands (it equals a
single left-to-right pass mapping each character independently); in
particular `escape_xml "a&b<c>d" = "a&amp;b&lt;c&gt;d"`. -/
theorem escape_xml_single_pass :
    (∀ s : String, escape_xml s = String.mk (escSpec s.data)) ∧
    escape_xml "a&b<c>d" = "a&amp;b&lt;c&gt;d" :=
  ⟨fun s => congrArg String.mk (escapeList_eq_escSpec s.data), by decide⟩

theorem fmt1_shape (n den : Int) :
    ∃ a b : Int, 0 ≤ b ∧ b < 10 ∧ fmt1 n den = toString a ++ "." ++ toString b := by
  unfold fmt1
  exact ⟨_, _, Int.emod_nonneg _ (by norm_num), Int.emod_lt_of_pos _ (by norm_num), rfl⟩

/-- C6: `format_number` at its threshold boundaries, and the general
suffix shape of each branch: one decimal digit before the suffix, `B` from
`1e9`, `M` from `1e6`, `K` from `1e3`, the literal decimal integer below. -/
theorem format_number_boundaries :
    format_number 999 = "999" ∧
    format_number 1000 = "1.0K" ∧
    format_number 1500000 = "1.5M" ∧
    format_number 2000000000 = "2.0B" ∧
    (∀ n : Int, 1000000000 ≤ n →
      ∃ a b : Int, 0 ≤ b ∧ b < 10 ∧
        format_number n = toString a ++ "." ++ toString b ++ "B") ∧
    (∀ n : Int, 1000000 ≤ n → n < 1000000000 →
      ∃ a b : Int, 0 ≤ b ∧ b < 10 ∧
        format_number n = toString a ++ "." ++ toString b ++ "M") ∧
    (∀ n : Int, 1000 ≤ n → n < 1000000 →
      ∃ a b : Int, 0 ≤ b ∧ b < 10 ∧
        format_number n = toString a ++ "." ++ toString b ++ "K") ∧
    (∀ n : Int, 0 ≤ n → n < 1000 → format_number n = toString n) := by
  refine ⟨by decide, by decide, by decide, by decide, ?_, ?_, ?_, ?_⟩
  · intro n h
    obtain ⟨a, b, hb0, hb1, he⟩ := fmt1_shape n 1000000000
    refine ⟨a, b, hb0, hb1, ?_⟩
    unfold format_number
    rw [if_pos h, he]
  · intro n h h'
    obtain ⟨a, b, hb0, hb1, he⟩ := fmt1_shape n 1000000
    refine ⟨a, b, hb0, hb1, ?_⟩
    unfold format_number
    rw [if_neg (by omega : ¬ (1000000000 : Int) ≤ n), if_pos h, he]
  · intro n h h'
    obtain ⟨a, b, hb0, hb1, he⟩ := fmt1_shape n 1000
    refine ⟨a, b, hb0, hb1, ?_⟩
    unfold format_number
    rw [if_neg (by omega : ¬ (1000000000 : Int) ≤ n),
      if_neg (by omega : ¬ (1000000 : Int) ≤ n), if_pos h, he]
  · intro n _ h'
    unfold format_number
    rw [if_neg (by omega : ¬ (1000000000 : Int) ≤ n),
      if_neg (by omega : ¬ (1000000 : Int) ≤ n),
      if_neg (by omega : ¬ (1000 : Int) ≤ n)]

/-- Witness for C6's general branch shapes at a concrete input. -/
theorem format_number_boundaries_witness :
    (1000000000 : Int) ≤ 2500000000 ∧
    (∃ a b : Int, 0 ≤ b ∧ b < 10 ∧
      format_number 2500000000 = toString a ++ "." ++ toString b ++ "B") :=
  ⟨by decide, format_number_boundaries.2.2.2.2.1 2500000000 (by decide)⟩

/-! ## The merge claims -/

/-- C1: the monotonic ratchet.  For any live record and any cached record,
every cumulative field present in the cached record is merged to a value at
least the cached value and at least the live value (the live side entering
as `live.get(key, 0)`, which equals the live value whenever the key is
present). -/
theorem merge_with_cache_ratchet {α : Type} (L C : StatsDict α)
    (k : CumField) (cv : Int) (hC : C.cum k = some cv) :
    ∃ m : Int, (merge_with_cache L (some C)).cum k = some m ∧
      cv ≤ m ∧ (L.cum k).getD 0 ≤ m := by
  refine ⟨max ((L.cum k).getD 0) cv, ?_, le_max_right _ _, le_max_left _ _⟩
  simp [merge_with_cache, hC]

/-- A live record used by witnesses. -/
def liveW : StatsDict Unit :=
  ⟨(), fun _ => some 7⟩

/-- A cached record used by witnesses: `loc_added` present (value 9), the
other cumulative keys absent. -/
def cachedW : StatsDict Unit :=
  ⟨(), fun k => if k = CumField.loc_added then some 9 else none⟩

/-- Witness for C1 at concrete records. -/
theorem merge_with_cache_ratchet_witness :
    ∃ m : Int, (merge_with_cache liveW (some cachedW)).cum CumField.loc_added = some m ∧
      9 ≤ m ∧ (liveW.cum CumField.loc_added).getD 0 ≤ m :=
  merge_with_cache_ratchet liveW cachedW CumField.loc_added 9 rfl

/-- C2: `merge_with_cache` equals the live record outside the six
cumulative fields, takes `max(live, cached)` on every cumulative field
present in both records, leaves cumulative fields absent from the cache at
their live value, and is the identity when there is no cache. -/
theorem merge_with_cache_spec {α : Type} (L C : StatsDict α)
    (k k2 : CumField) (lv cv : Int)
    (hL : L.cum k = some lv) (hC : C.cum k = some cv)
    (hC2 : C.cum k2 = none) :
    merge_with_cache L none = L ∧
    (merge_with_cache L (some C)).base = L.base ∧
    (merge_with_cache L (some C)).cum k = some (max lv cv) ∧
    (merge_with_cache L (some C)).cum k2 = L.cum k2 := by
  refine ⟨rfl, rfl, ?_, ?_⟩
  · simp [merge_with_cache, hC, hL]
  · simp [merge_with_cache, hC2]

/-- Witness for C2 at concrete records. -/
theorem merge_with_cache_spec_witness :
    merge_with_cache liveW none = liveW ∧
    (merge_with_cache liveW (some cachedW)).base = liveW.base ∧
    (merge_with_cache liveW (some cachedW)).cum CumField.loc_added = some (max 7 9) ∧
    (merge_with_cache liveW (some cachedW)).cum CumField.total_prs =
      liveW.cum CumField.total_prs :=
  merge_with_cache_spec liveW cachedW CumField.loc_added CumField.total_prs 7 9
    rfl rfl rfl

/-! ## The cache-fallback claims on `get_org_stats` -/

/-- C9: when the repository listing is unavailable (`None`, a non-list, or
the falsy empty list), `get_org_stats` returns the cached `org` entry
verbatim when one is loadable, and the all-zero record only otherwise. -/
theorem get_org_stats_cache_fallback (reposResp : ApiResp Repo)
    (env : GhEnv) (cache : Option CacheFile)
    (hbad : reposResp = ApiResp.missing ∨ reposResp = ApiResp.nonList ∨
      reposResp = ApiResp.list []) :
    get_org_stats reposResp env cache =
      (match cacheOrg cache with
       | some s => s
       | none => zeroStats) := by
  rcases hbad with h | h | h <;> subst h <;> rfl

/-- An environment with every external call failing, used by witnesses and
counterexamples. -/
def envW : GhEnv :=
  ⟨ApiResp.missing, fun _ _ => ApiResp.missing, fun _ => GqlResp.bad⟩

/-- A non-zero stats record standing for a previously cached snapshot. -/
def cachedSnapshotW : StatsRec :=
  ⟨{ public_repos := 3, private_repos := 1, total_repos := 4
     total_stars := 5, total_forks := 2, members := 2
     languages := ["Go", "Python"] },
   fun _ => some 11⟩

/-- A loadable cache file wrapping `cachedSnapshotW`. -/
def cacheFileW : CacheFile :=
  ⟨"2024-01-01T00:00:00", some cachedSnapshotW⟩

/-- Witness for C9: with a missing listing and a loadable cache, the cached
record is returned. -/
theorem get_org_stats_cache_fallback_witness :
    get_org_stats ApiResp.missing envW (some cacheFileW) =
      (match cacheOrg (some cacheFileW) with
       | some s => s
       | none => zeroStats) :=
  get_org_stats_cache_fallback ApiResp.missing envW (some cacheFileW)
    (Or.inl rfl)

/-- Counterexample to C3 as stated: with an empty repository listing but a
loadable cache snapshot, `get_org_stats` returns the cached record, whose
`total_stars` is 5, not 0. -/
theorem get_org_stats_empty_list_not_all_zero :
    ¬ (get_org_stats (ApiResp.list []) envW (some cacheFileW)).base.total_stars = 0 := by
  decide

/-! ## Renderer building blocks (`generate_svg`, src lines 208-418) -/

/-- `width = 800` (src line 239). -/
def widthConst : Nat := 800

/-- `font_size = 14` (src line 240). -/
def fontSize : Nat := 14

/-- `char_width = font_size * 0.6 = 8.4` pixels (src line 385), carried
exactly as 84 tenths of a pixel. -/
def charWidthTenths : Int := (fontSize : Int) * 6

/-- A color scheme (src lines 216-236). -/
structure Palette where
  bg : String
  text : String
  gray : String
  magenta : String
  green : String
  red : String
  orange : String
  yellow : String

/-- Dark palette (src lines 216-225). -/
def darkColors : Palette :=
  { bg := "#0d1117", text := "#39c5cf", gray := "#8b949e"
    magenta := "#e879f9", green := "#a3e635", red := "#f87171"
    orange := "#fb923c", yellow := "#fbbf24" }

/-- Light palette (src lines 227-236). -/
def lightColors : Palette :=
  { bg := "#f6f8fa", text := "#0969da", gray := "#57606a"
    magenta := "#c026d3", green := "#65a30d", red := "#dc2626"
    orange := "#ea580c", yellow := "#d97706" }

/-- Palette selection: `if mode == "dark"` (src line 215). -/
def colorsFor (mode : String) : Palette :=
  if mode = "dark" then darkColors else lightColors

/-! ### Decimal digits and Python's `f"{n:,}"` comma grouping -/

/-- The character of a decimal digit. -/
def digitChar (d : Nat) : Char := Char.ofNat (48 + d)

/-- Decimal digit string of a natural number, most significant first. -/
def natDigits (n : Nat) : List Char :=
  if n < 10 then [digitChar n]
  else natDigits (n / 10) ++ [digitChar (n % 10)]
termination_by n
decreasing_by exact Nat.div_lt_self (by omega) (by omega)

/-- Insert a comma after every three characters of a reversed digit list
(grouping from the least significant end). -/
def commaRev : List Char → List Char
  | d1 :: d2 :: d3 :: d4 :: rest => d1 :: d2 :: d3 :: ',' :: commaRev (d4 :: rest)
  | l => l
termination_by l => l.length

/-- `f"{n:,}"` for a natural number. -/
def commaNat (n : Nat) : List Char :=
  (commaRev (natDigits n).reverse).reverse

/-- `f"{i:,}"` for an integer: the sign precedes the grouped digits. -/
def commaInt (i : Int) : String :=
  if i < 0 then "-" ++ String.mk (commaNat i.natAbs)
  else String.mk (commaNat i.natAbs)

/-! ### `stat_line` (src lines 245-249) and the languages value -/

/-- `'.' * n` (negative counts yield the empty string). -/
def dotsFill (n : Int) : String := String.mk (List.replicate n.toNat '.')

/-- `stat_line` (src lines 245-249): `content_width = 90` (src line 243),
`f"{key_str} {dots} {val_str}"` with `key_str = f"{key}:"`; the caller's
`str(value)` has already been applied to `val`. -/
def stat_line (key val : String) : String :=
  key ++ ":" ++ " " ++
    dotsFill (90 - ((key.length : Int) + 1) - (val.length : Int) - 2) ++
    " " ++ val

/-- Python `", ".join(ls)`. -/
def joinComma : List String → String
  | [] => ""
  | [s] => s
  | s :: t :: rest => s ++ ", " ++ joinComma (t :: rest)

/-- `", ".join(languages) or "Various"` (src line 292): the empty join is
falsy, so it falls back to the literal. -/
def langStr (ls : List String) : String :=
  if joinComma ls = "" then "Various" else joinComma ls

/-! ### The lines-of-code regex (src line 382)

`re.search(r'([\d,]+) \( \+([\d,]+), -([\d,]+) \)', loc_value)` is embedded
as a leftmost search with a greedy, backtracking matcher for the fixed
token sequence group/literal/group/literal/group/literal over the character
class `[\d,]`.  (Python's `\d` also accepts non-ASCII digits; every string
this program feeds the regex is ASCII.) -/

/-- The character class `[\d,]`. -/
def isDigitComma (c : Char) : Bool := c.isDigit || c = ','

/-- One token of the pattern: a literal, or the capture group `([\d,]+)`. -/
inductive Tok
  | lit (s : List Char)
  | grp

/-- Strip an exact literal from the front of a list. -/
def stripLit : List Char → List Char → Option (List Char)
  | [], l => some l
  | _ :: _, [] => none
  | c :: cs, x :: xs => if x = c then stripLit cs xs else none

/-- The candidate (group, remainder) splits a greedy `([\d,]+)` tries, in
order: the reversed maximal class run is peeled from its last character, so
candidates run from the longest group down to one character. -/
def splitsAux : List Char → List Char → List (List Char × List Char)
  | [], _ => []
  | c :: rs, rest => ((c :: rs).reverse, rest) :: splitsAux rs (c :: rest)

/-- Match a token sequence at the start of the input, with greedy
backtracking for groups; returns the captured groups and the remainder. -/
def matchToks : List Tok → List Char → Option (List (List Char) × List Char)
  | [], l => some ([], l)
  | Tok.lit s :: ts, l =>
    match stripLit s l with
    | some r => matchToks ts r
    | none => none
  | Tok.grp :: ts, l =>
    (splitsAux (l.takeWhile isDigitComma).reverse (l.dropWhile isDigitComma)).findSome?
      (fun p =>
        match matchToks ts p.2 with
        | some (gs, rem) => some (p.1 :: gs, rem)
        | none => none)

/-- `re.search`: try the match at every start position, left to right. -/
def searchToks (toks : List Tok) : List Char → Option (List (List Char))
  | [] =>
    match matchToks toks [] with
    | some (gs, _) => some gs
    | none => none
  | c :: t =>
    match matchToks toks (c :: t) with
    | some (gs, _) => some gs
    | none => searchToks toks t

/-- The pattern `([\d,]+) \( \+([\d,]+), -([\d,]+) \)`. -/
def locPattern : List Tok :=
  [Tok.grp, Tok.lit " ( +".data, Tok.grp, Tok.lit ", -".data,
   Tok.grp, Tok.lit " )".data]

/-! ### Tenth-of-a-pixel coordinates and marker stripping -/

/-- Render an integer number of tenths as Python prints the corresponding
float: integer part, a dot, one decimal digit.  (Python computes these
x-coordinates in binary floating point and prints the shortest round-trip
decimal of the result; the exact value is always a multiple of 0.1, and
this definition prints that exact decimal.) -/
def showTenths (t : Int) : String :=
  (if t < 0 then "-" else "") ++
    toString (t.natAbs / 10) ++ "." ++ toString (t.natAbs % 10)

theorem stripLit_length :
    ∀ (s l r : List Char), stripLit s l = some r → r.length + s.length = l.length := by
  intro s
  induction s with
  | nil =>
    intro l r h
    simp [stripLit] at h
    simp [h]
  | cons c cs ih =>
    intro l r h
    cases l with
    | nil => simp [stripLit] at h
    | cons x xs =>
      by_cases hx : x = c
      · simp only [stripLit, if_pos hx] at h
        have := ih xs r h
        simp [List.length_cons]
        omega
      · simp [stripLit, hx] at h

/-- Python `s.replace(pat, '')` for a non-empty pattern: scan left to
right, removing each (non-overlapping) occurrence. -/
def removeAll (pat : List Char) (l : List Char) : List Char :=
  match pat with
  | [] => l
  | p :: ps =>
    match l with
    | [] => []
    | c :: cs =>
      match h : stripLit (p :: ps) (c :: cs) with
      | some rest => removeAll (p :: ps) rest
      | none => c :: removeAll (p :: ps) cs
termination_by l.length
decreasing_by
  · have := stripLit_length _ _ _ h
    simp only [List.length_cons] at this ⊢
    omega
  · simp

/-- The `'__LOC__'` sentinel check of src line 376. -/
def isLocLine (t : String) : Bool :=
  (stripLit "__LOC__".data t.data).isSome

/-- `line_text.replace('__LOC__', '').replace('__', '')` (src line 377). -/
def stripLocMarkers (t : String) : String :=
  String.mk (removeAll "__".data (removeAll "__LOC__".data t.data))

/-! ### The lines-of-code line (src lines 376-407) -/

/-- `key_str` of the lines-of-code line (src line 378). -/
def locKey : String := "Lines of Code:"

/-- `dots_len = content_width - len(key_str) - len(loc_value) - 2`
(src line 379). -/
def locDotsLen (v : String) : Int :=
  90 - (locKey.length : Int) - (v.length : Int) - 2

/-- `dots = '.' * max(dots_len, 3)` (src line 380). -/
def locDots (v : String) : String :=
  String.mk (List.replicate (max (locDotsLen v) 3).toNat '.')

/-- The five colored segments of a matched lines-of-code line
(src lines 384-405): x-coordinate in tenths of a pixel, class, text. -/
def locSegsOf (v : String) : Option (List (Int × String × String)) :=
  match searchToks locPattern v.data with
  | some [t, a, d] =>
    let dots := locDots v
    let full_line := locKey ++ " " ++ dots ++ " " ++ String.mk t ++ " ( +" ++
      String.mk a ++ ", -" ++ String.mk d ++ " )"
    let start_x : Int :=
      ((widthConst : Int) * 10 - charWidthTenths * (full_line.length : Int)) / 2
    let pfx := locKey ++ " " ++ dots ++ " " ++ String.mk t ++ " ( "
    let green_x := start_x + (pfx.length : Int) * charWidthTenths
    let green_text := "+" ++ String.mk a
    let comma_x := green_x + (green_text.length : Int) * charWidthTenths
    let red_x := comma_x + 2 * charWidthTenths
    let red_text := "-" ++ String.mk d
    let suffix_x := red_x + (red_text.length : Int) * charWidthTenths
    some [(start_x, "gray", pfx), (green_x, "green", green_text),
          (comma_x, "gray", ", "), (red_x, "red", red_text),
          (suffix_x, "gray", " )")]
  | _ => none

/-- One positioned, classed text element of the lines-of-code line. -/
def segElem (y : Nat) (seg : Int × String × String) : String :=
  "<text x=\"" ++ showTenths seg.1 ++ "\" y=\"" ++ toString y ++
    "\" class=\"" ++ seg.2.1 ++ "\">" ++ seg.2.2 ++ "</text>\n"

/-- Render the lines-of-code line: the five colored segments when the regex
matches, else the single centered gray fallback element (src line 407). -/
def renderLoc (v : String) (y : Nat) : String :=
  match locSegsOf v with
  | some segs => String.join (segs.map (segElem y))
  | none =>
    "<text x=\"" ++ toString (widthConst / 2) ++ "\" y=\"" ++ toString y ++
      "\" text-anchor=\"middle\" class=\"gray\">" ++
      (locKey ++ " " ++ locDots v ++ " " ++ v) ++ "</text>\n"

/-! ### The line list and the body renderer (src lines 251-346, 374-415) -/

/-- One entry of the `lines` list: `(text, color, spacing)`. -/
abbrev RenderLine := String × String × String

/-- A centered text element (src line 410). -/
def textElemC (y : Nat) (color txt : String) : String :=
  "<text x=\"" ++ toString (widthConst / 2) ++ "\" y=\"" ++ toString y ++
    "\" text-anchor=\"middle\" class=\"" ++ color ++ "\">" ++ txt ++
    "</text>\n"

/-- Render one line of the body (src lines 375-410): the lines-of-code
sentinel branch, then non-empty lines as centered escaped text, and empty
lines as nothing. -/
def renderLineStr (t color : String) (y : Nat) : String :=
  if isLocLine t then renderLoc (stripLocMarkers t) y
  else if t = "" then ""
  else textElemC y color (escape_xml t)

/-- The y-advance of one line: `line_height_normal // 2 = 10` for a blank
spacer, else `line_height_normal = 20` (src lines 341-345, 412-415). -/
def lineAdvance (sp : String) : Nat := if sp = "blank" then 10 else 20

/-- Render the body lines against a running y cursor starting at
`y_start = 30`. -/
def renderBody : List RenderLine → Nat → String
  | [], _ => ""
  | (t, color, sp) :: rest, y =>
    renderLineStr t color y ++ renderBody rest (y + lineAdvance sp)

/-- Total y-advance of a list of lines (the height loop, src lines
340-345). -/
def advance (lines : List RenderLine) : Nat :=
  lines.foldr (fun x acc => lineAdvance x.2.2 + acc) 0

/-- The question-mark block art (src lines 254-277). -/
def header_art : List String :=
  ["                                                                                          ",
   "                                     **********************                               ",
   "                                  ****************************                            ",
   "                                ****     ******************  ****                          ",
   "                               ***          ************       ***                         ",
   "                               ***           **********        ***                         ",
   "                               ***            ********         ***                         ",
   "                                ****          ********       ****                          ",
   "                                  ****       ********     ****                             ",
   "                                    ****    ********    ****                               ",
   "                                      ***  ********   ***                                  ",
   "                                       *** ******** ***                                    ",
   "                                        ** ******** **                                     ",
   "                                           ********                                        ",
   "                                           ********                                        ",
   "                                            ******                                         ",
   "                                             ****                                          ",
   "                                                                                          ",
   "                                             ****                                          ",
   "                                            ******                                         ",
   "                                             ****                                          ",
   "                                                                                          "]

/-- The art lines are appended with color `yellow`, spacing `normal`
(src lines 278-279). -/
def headerArtLines : List RenderLine :=
  header_art.map (fun a => (a, "yellow", "normal"))

/-- A blank spacer entry. -/
def blankLine : RenderLine := ("", "text", "blank")

/-- Every `lines` entry from the start through the "Pull Requests" row
(src lines 251-314). -/
def mkLinesA (s : StatsRec) : List RenderLine :=
  headerArtLines ++
  [blankLine,
   ("C o d e s W h a t ?", "text", "normal"),
   blankLine,
   ("building things that make you go \x27huh, neat\x27", "gray", "normal"),
   blankLine, blankLine,
   ("---------------------------------------- ORG INFO ----------------------------------------", "orange", "normal"),
   blankLine,
   (stat_line "Members" (toString s.base.members), "gray", "normal"),
   (stat_line "Languages" (langStr s.base.languages), "gray", "normal"),
   (stat_line "Focus" "AI Tools, Developer Experience, Open Source", "gray", "normal"),
   blankLine, blankLine,
   ("--------------------------------------- ORG STATS ----------------------------------------", "green", "normal"),
   blankLine,
   (stat_line "Repositories"
     (toString s.base.public_repos ++ " public / " ++
       toString s.base.private_repos ++ " private"), "gray", "normal"),
   (stat_line "Total Stars" (toString s.base.total_stars), "gray", "normal"),
   (stat_line "Total Forks" (toString s.base.total_forks), "gray", "normal"),
   (stat_line "Total Commits"
     (format_number ((s.cum CumField.total_commits).getD 0)), "gray", "normal"),
   (stat_line "Pull Requests"
     (toString ((s.cum CumField.total_prs).getD 0)), "gray", "normal")]

/-- `loc_value = f"{loc_total:,} ( +{loc_added:,}, -{loc_deleted:,} )"`
(src lines 317-320). -/
def locValueStr (s : StatsRec) : String :=
  commaInt ((s.cum CumField.loc_total).getD 0) ++ " ( +" ++
    commaInt ((s.cum CumField.loc_added).getD 0) ++ ", -" ++
    commaInt ((s.cum CumField.loc_deleted).getD 0) ++ " )"

/-- The sentinel-wrapped lines-of-code entry (src line 321). -/
def locLineEntry (s : StatsRec) : RenderLine :=
  ("__LOC__" ++ locValueStr s ++ "__", "loc", "normal")

/-- Every `lines` entry between the lines-of-code row and the final date
row (src lines 323-336). -/
def mkLinesB0 : List RenderLine :=
  [blankLine, blankLine,
   ("--------------------------------------- PROJECTS -----------------------------------------", "magenta", "normal"),
   blankLine,
   (stat_line "whatsupdocker-ce" "container image update monitoring", "gray", "normal"),
   (stat_line "smithers" "secure self-hosted AI assistant", "gray", "normal"),
   (stat_line "mylair" "social platform for AI agents", "gray", "normal"),
   blankLine,
   ("// CodesWhat? codes what needs coding.", "gray", "normal"),
   blankLine]

/-- `f"Last Updated: {today}"` (src line 337); the wall-clock date is the
explicit parameter. -/
def dateLineEntry (d : String) : RenderLine :=
  ("Last Updated: " ++ d, "gray", "normal")

/-- The full `lines` list of one render (src lines 251-337). -/
def mkLines (s : StatsRec) (d : String) : List RenderLine :=
  mkLinesA s ++ locLineEntry s :: (mkLinesB0 ++ [dateLineEntry d])

/-- The document prologue: XML declaration, root element, style block and
background rect (src lines 349-372). -/
def svgHeader (p : Palette) (h : Nat) : String :=
  "<?xml version=\"1.0\" encoding=\"UTF-8\"?>\n<svg xmlns=\"http://www.w3.org/2000/svg\" width=\"" ++
  toString widthConst ++ "\" height=\"" ++ toString h ++ "\" viewBox=\"0 0 " ++
  toString widthConst ++ " " ++ toString h ++
  "\">\n<style>\n@font-face \x7b\n    src: local(\x27Consolas\x27), local(\x27Monaco\x27), local(\x27Menlo\x27);\n    font-family: \x27MonoFallback\x27;\n    font-display: swap;\n\x7d\ntext \x7b\n    font-family: \x27MonoFallback\x27, ui-monospace, SFMono-Regular, \x27SF Mono\x27, Menlo, Consolas, monospace;\n    font-size: " ++
  toString fontSize ++
  "px;\n    white-space: pre;\n    dominant-baseline: text-before-edge;\n\x7d\n.text \x7b fill: " ++
  p.text ++ "; \x7d\n.gray \x7b fill: " ++ p.gray ++
  "; \x7d\n.magenta \x7b fill: " ++ p.magenta ++ "; \x7d\n.green \x7b fill: " ++
  p.green ++ "; \x7d\n.red \x7b fill: " ++ p.red ++ "; \x7d\n.orange \x7b fill: " ++
  p.orange ++ "; \x7d\n.yellow \x7b fill: " ++ p.yellow ++
  "; \x7d\n</style>\n<rect width=\"" ++ toString widthConst ++ "\" height=\"" ++
  toString h ++ "\" fill=\"" ++ p.bg ++ "\" rx=\"10\"/>\n"

/-- `height = y_start + sum of line advances + 30` (src lines 339-346). -/
def heightOf (s : StatsRec) (d : String) : Nat :=
  30 + advance (mkLines s d) + 30

/-- `generate_svg` (src lines 208-418): prologue, rendered body lines from
`y = 30`, closing tag. -/
def generate_svg (mode : String) (s : StatsRec) (today : String) : String :=
  svgHeader (colorsFor mode) (heightOf s today) ++
    renderBody (mkLines s today) 30 ++ "</svg>"

/-! ## Layout and determinism lemmas -/

theorem advance_cons (x : RenderLine) (rest : List RenderLine) :
    advance (x :: rest) = lineAdvance x.2.2 + advance rest := rfl

theorem advance_append (a b : List RenderLine) :
    advance (a ++ b) = advance a + advance b := by
  induction a with
  | nil => simp [advance]
  | cons x xs ih =>
    simp only [List.cons_append, advance_cons, ih]
    omega

theorem renderBody_append (a b : List RenderLine) (y : Nat) :
    renderBody (a ++ b) y = renderBody a y ++ renderBody b (y + advance a) := by
  induction a generalizing y with
  | nil => simp [renderBody, advance]
  | cons x xs ih =>
    obtain ⟨t, color, sp⟩ := x
    calc renderBody ((t, color, sp) :: xs ++ b) y
        = renderLineStr t color y ++ renderBody (xs ++ b) (y + lineAdvance sp) := rfl
      _ = renderLineStr t color y ++
            (renderBody xs (y + lineAdvance sp) ++
              renderBody b (y + lineAdvance sp + advance xs)) := by rw [ih]
      _ = (renderLineStr t color y ++ renderBody xs (y + lineAdvance sp)) ++
            renderBody b (y + lineAdvance sp + advance xs) := by
          rw [String.append_assoc]
      _ = renderBody ((t, color, sp) :: xs) y ++
            renderBody b (y + advance ((t, color, sp) :: xs)) := by
          rw [advance_cons, ← Nat.add_assoc]
          rfl

theorem lineAdvance_normal : lineAdvance "normal" = 20 := rfl

theorem lineAdvance_blank : lineAdvance "blank" = 10 := rfl

theorem advance_headerArt : advance headerArtLines = 440 := by
  simp [headerArtLines, header_art, advance, lineAdvance_normal]

theorem advance_mkLinesA (s : StatsRec) : advance (mkLinesA s) = 760 := by
  unfold mkLinesA
  rw [advance_append, advance_headerArt]
  simp [advance, blankLine, lineAdvance_normal, lineAdvance_blank]

theorem advance_mkLinesB0 : advance mkLinesB0 = 150 := by
  simp [mkLinesB0, advance, blankLine, lineAdvance_normal, lineAdvance_blank]

theorem advance_mkLines (s : StatsRec) (d : String) :
    advance (mkLines s d) = 950 := by
  unfold mkLines
  rw [advance_append, advance_mkLinesA, advance_cons, advance_append,
    advance_mkLinesB0]
  simp [advance, locLineEntry, dateLineEntry, lineAdvance_normal]

theorem heightOf_const (s : StatsRec) (d : String) : heightOf s d = 1010 := by
  simp [heightOf, advance_mkLines]

/-- The spacing tags of the 54 lines, a constant. -/
def spacingTags : List String :=
  List.replicate 22 "normal" ++
  ["blank", "normal", "blank", "normal", "blank", "blank", "normal",
   "blank", "normal", "normal", "normal", "blank", "blank", "normal",
   "blank", "normal", "normal", "normal", "normal", "normal", "normal",
   "blank", "blank", "normal", "blank", "normal", "normal", "normal",
   "blank", "normal", "blank", "normal"]

set_option maxHeartbeats 2000000 in
/-- C10: the rendered line structure is fixed: for every stats record and
every date, the lines list has the same length and the same blank/normal
spacing tags, hence the computed height (20 per normal line, 10 per blank
spacer, plus the 30 top offset and 30 bottom margin) is the constant 1010,
and the document width is the constant 800. -/
theorem layout_constant (s : StatsRec) (d : String) :
    (mkLines s d).map (fun x => x.2.2) = spacingTags ∧
    (mkLines s d).length = 54 ∧
    heightOf s d = 30 + advance (mkLines s d) + 30 ∧
    heightOf s d = 1010 ∧
    widthConst = 800 := by
  refine ⟨?_, ?_, rfl, heightOf_const s d, rfl⟩
  · simp [mkLines, mkLinesA, mkLinesB0, headerArtLines, header_art, blankLine,
      locLineEntry, dateLineEntry, spacingTags]
  · simp [mkLines, mkLinesA, mkLinesB0, headerArtLines, header_art, blankLine,
      locLineEntry, dateLineEntry]

/-- Everything `generate_svg` emits before the date element: prologue at
the constant height plus the body lines up to and including the blank
spacer before the date row.  Independent of the date. -/
def svgCommon (mode : String) (s : StatsRec) : String :=
  svgHeader (colorsFor mode) 1010 ++
    renderBody (mkLinesA s ++ locLineEntry s :: mkLinesB0) 30

/-- The date-dependent tail of the document: the `Last Updated` element at
its constant y = 960 plus the closing tag. -/
def svgDateSuffix (d : String) : String :=
  renderBody [dateLineEntry d] 960 ++ "</svg>"

set_option maxHeartbeats 2000000 in
/-- C4: `generate_svg` is deterministic in everything but the wall-clock
date: the document decomposes as a date-independent part followed by the
`Last Updated` element, so two renders of the same stats and mode are
byte-identical except for that one line. -/
theorem generate_svg_deterministic (mode : String) (s : StatsRec) (d : String) :
    generate_svg mode s d = svgCommon mode s ++ svgDateSuffix d := by
  have h0 : generate_svg mode s d =
      svgHeader (colorsFor mode) 1010 ++
        renderBody ((mkLinesA s ++ locLineEntry s :: mkLinesB0) ++
          [dateLineEntry d]) 30 ++ "</svg>" := by
    have h1 : heightOf s d = 1010 := heightOf_const s d
    have h2 : mkLines s d =
        (mkLinesA s ++ locLineEntry s :: mkLinesB0) ++ [dateLineEntry d] := by
      simp [mkLines, List.append_assoc]
    rw [generate_svg, h1, h2]
  rw [h0, renderBody_append]
  have h3 : advance (mkLinesA s ++ locLineEntry s :: mkLinesB0) = 930 := by
    simp [advance_append, advance_mkLinesA, advance_cons, advance_mkLinesB0,
      locLineEntry, lineAdvance_normal]
  rw [h3]
  simp [svgCommon, svgDateSuffix, String.append_assoc]

/-! ## The empty-listing scenario (C3) -/

/-- The nine rows preceding the Languages row of `mkLinesA zeroStats`. -/
def preLangRows : List RenderLine :=
  headerArtLines ++
  [blankLine,
   ("C o d e s W h a t ?", "text", "normal"),
   blankLine,
   ("building things that make you go \x27huh, neat\x27", "gray", "normal"),
   blankLine, blankLine,
   ("---------------------------------------- ORG INFO ----------------------------------------", "orange", "normal"),
   blankLine,
   (stat_line "Members" (toString zeroStats.base.members), "gray", "normal")]

/-- The rows of `mkLinesA zeroStats` after the Languages row. -/
def postLangRows : List RenderLine :=
  [(stat_line "Focus" "AI Tools, Developer Experience, Open Source", "gray", "normal"),
   blankLine, blankLine,
   ("--------------------------------------- ORG STATS ----------------------------------------", "green", "normal"),
   blankLine,
   (stat_line "Repositories"
     (toString zeroStats.base.public_repos ++ " public / " ++
       toString zeroStats.base.private_repos ++ " private"), "gray", "normal"),
   (stat_line "Total Stars" (toString zeroStats.base.total_stars), "gray", "normal"),
   (stat_line "Total Forks" (toString zeroStats.base.total_forks), "gray", "normal"),
   (stat_line "Total Commits"
     (format_number ((zeroStats.cum CumField.total_commits).getD 0)), "gray", "normal"),
   (stat_line "Pull Requests"
     (toString ((zeroStats.cum CumField.total_prs).getD 0)), "gray", "normal")]

theorem mkLinesA_zero_split :
    mkLinesA zeroStats =
      preLangRows ++ (stat_line "Languages" "Various",
        "gray", "normal") :: postLangRows := by
  simp [mkLinesA, preLangRows, postLangRows,
    show langStr zeroStats.base.languages = "Various" from rfl]

theorem advance_preLangRows : advance preLangRows = 570 := by
  unfold preLangRows
  rw [advance_append, advance_headerArt]
  simp [advance, blankLine, lineAdvance_normal, lineAdvance_blank]

theorem langStr_nil : langStr [] = "Various" := rfl

theorem isLocLine_languages :
    isLocLine (stat_line "Languages" "Various") = false := by decide

theorem stat_line_languages_ne_empty :
    ¬ stat_line "Languages" "Various" = "" := by decide

/-- C3 (amended: the empty-listing scenario yields the all-zero record and
the "Various" fallback only when no loadable cache snapshot with an `org`
entry exists; with such a snapshot the cached record is returned instead,
see the counterexample and C9): with an empty repository listing and no
cached `org` entry, `get_org_stats` returns the all-zero record with empty
languages, and the rendered document contains the Languages row displaying
the literal fallback text `Various`. -/
theorem get_org_stats_empty_list_no_cache (env : GhEnv)
    (cache : Option CacheFile) (hc : cacheOrg cache = none)
    (mode d : String) :
    get_org_stats (ApiResp.list []) env cache = zeroStats ∧
    zeroStats.base.public_repos = 0 ∧
    zeroStats.base.private_repos = 0 ∧
    zeroStats.base.total_repos = 0 ∧
    zeroStats.base.total_stars = 0 ∧
    zeroStats.base.total_forks = 0 ∧
    zeroStats.base.members = 0 ∧
    (∀ k, zeroStats.cum k = some 0) ∧
    zeroStats.base.languages = [] ∧
    langStr zeroStats.base.languages = "Various" ∧
    (∃ pre post : String, generate_svg mode zeroStats d =
      pre ++ textElemC 600 "gray" (escape_xml (stat_line "Languages" "Various")) ++ post) := by
  refine ⟨?_, rfl, rfl, rfl, rfl, rfl, rfl, fun k => rfl, rfl, rfl, ?_⟩
  · simp [get_org_stats, hc]
  · have hsplit : mkLines zeroStats d =
        preLangRows ++ (stat_line "Languages" "Various", "gray", "normal") ::
          (postLangRows ++ locLineEntry zeroStats :: (mkLinesB0 ++ [dateLineEntry d])) := by
      rw [mkLines, mkLinesA_zero_split]
      simp [List.append_assoc]
    have h0 : generate_svg mode zeroStats d =
        svgHeader (colorsFor mode) 1010 ++
          renderBody (mkLines zeroStats d) 30 ++ "</svg>" := by
      rw [generate_svg, heightOf_const]
    have hbody : renderBody (mkLines zeroStats d) 30 =
        renderBody preLangRows 30 ++
          (renderLineStr (stat_line "Languages" "Various") "gray" 600 ++
            renderBody (postLangRows ++ locLineEntry zeroStats ::
              (mkLinesB0 ++ [dateLineEntry d])) 620) := by
      rw [hsplit, renderBody_append, advance_preLangRows]
      rfl
    have hlang : renderLineStr (stat_line "Languages" "Various") "gray" 600 =
        textElemC 600 "gray" (escape_xml (stat_line "Languages" "Various")) := by
      rw [renderLineStr, isLocLine_languages]
      simp [stat_line_languages_ne_empty]
    refine ⟨svgHeader (colorsFor mode) 1010 ++ renderBody preLangRows 30,
      renderBody (postLangRows ++ locLineEntry zeroStats ::
        (mkLinesB0 ++ [dateLineEntry d])) 620 ++ "</svg>", ?_⟩
    rw [h0, hbody, hlang]
    simp [String.append_assoc]

/-- Witness for C3's amended theorem at a concrete cache-less input. -/
theorem get_org_stats_empty_list_no_cache_witness :
    cacheOrg none = none ∧
    get_org_stats (ApiResp.list []) envW none = zeroStats :=
  ⟨rfl, (get_org_stats_empty_list_no_cache envW none rfl "dark" "2026-10-12").1⟩

/-! ## String lemmas for the lines-of-code claim -/

theorem stripLit_self_append (s r : List Char) : stripLit s (s ++ r) = some r := by
  induction s with
  | nil => rfl
  | cons c cs ih => simp [stripLit, ih]

theorem stripLit_cons_ne (p : Char) (ps : List Char) (x : Char) (xs : List Char)
    (h : ¬ x = p) : stripLit (p :: ps) (x :: xs) = none := by
  simp [stripLit, h]

theorem removeAll_cons (p : Char) (ps : List Char) (c : Char) (cs : List Char) :
    removeAll (p :: ps) (c :: cs) =
      (match stripLit (p :: ps) (c :: cs) with
       | some rest => removeAll (p :: ps) rest
       | none => c :: removeAll (p :: ps) cs) := by
  rw [removeAll]
  cases hs : stripLit (p :: ps) (c :: cs) <;> simp [hs]

theorem removeAll_front (p : Char) (ps rest : List Char) :
    removeAll (p :: ps) ((p :: ps) ++ rest) = removeAll (p :: ps) rest := by
  rw [List.cons_append, removeAll_cons, ← List.cons_append,
    stripLit_self_append]

theorem removeAll_skip_all (p : Char) (ps v suff : List Char)
    (hv : ∀ c ∈ v, ¬ c = p) :
    removeAll (p :: ps) (v ++ suff) = v ++ removeAll (p :: ps) suff := by
  induction v with
  | nil => simp
  | cons c cs ih =>
    have hc : ¬ c = p := hv c (List.mem_cons_self c cs)
    rw [List.cons_append, removeAll_cons, stripLit_cons_ne _ _ _ _ hc]
    rw [ih (fun x hx => hv x (List.mem_cons_of_mem c hx))]
    simp

theorem takeWhile_append_of_all (p : Char → Bool) (g : List Char) (x : Char)
    (xs : List Char) (hg : ∀ c ∈ g, p c = true) (hx : p x = false) :
    (g ++ x :: xs).takeWhile p = g := by
  induction g with
  | nil => simp [List.takeWhile_cons, hx]
  | cons c cs ih =>
    rw [List.cons_append, List.takeWhile_cons,
      hg c (List.mem_cons_self c cs)]
    simp [ih (fun y hy => hg y (List.mem_cons_of_mem c hy))]

theorem dropWhile_append_of_all (p : Char → Bool) (g : List Char) (x : Char)
    (xs : List Char) (hg : ∀ c ∈ g, p c = true) (hx : p x = false) :
    (g ++ x :: xs).dropWhile p = x :: xs := by
  induction g with
  | nil => simp [List.dropWhile_cons, hx]
  | cons c cs ih =>
    rw [List.cons_append, List.dropWhile_cons,
      hg c (List.mem_cons_self c cs)]
    simp [ih (fun y hy => hg y (List.mem_cons_of_mem c hy))]

theorem digitChar_isDigit (d : Nat) (h : d < 10) :
    (digitChar d).isDigit = true := by
  interval_cases d <;> decide

theorem natDigits_ne_nil (n : Nat) : natDigits n ≠ [] := by
  rw [natDigits]
  by_cases h : n < 10 <;> simp [h]

theorem natDigits_digits (n : Nat) : ∀ c ∈ natDigits n, c.isDigit = true := by
  induction n using Nat.strong_induction_on with
  | _ n ih =>
    rw [natDigits]
    by_cases h : n < 10
    · simp only [if_pos h, List.mem_singleton]
      intro c hc
      subst hc
      exact digitChar_isDigit n h
    · simp only [if_neg h]
      intro c hc
      rcases List.mem_append.1 hc with hm | hm
      · exact ih (n / 10) (Nat.div_lt_self (by omega) (by omega)) c hm
      · rcases List.mem_singleton.1 hm with rfl
        exact digitChar_isDigit _ (Nat.mod_lt _ (by omega))

theorem commaRev_mem (l : List Char) (c : Char) (hc : c ∈ commaRev l) :
    c ∈ l ∨ c = ',' := by
  induction l using commaRev.induct with
  | case1 d1 d2 d3 d4 rest ih =>
    rw [commaRev] at hc
    simp only [List.mem_cons] at hc
    rcases hc with rfl | rfl | rfl | h
    · simp
    · simp
    · simp
    · rcases h with rfl | h
      · right; rfl
      · rcases ih h with hm | hm
        · left
          simp only [List.mem_cons] at hm ⊢
          tauto
        · right; exact hm
  | case2 l h =>
    rw [commaRev] at hc
    · left; exact hc
    · exact h

theorem commaRev_ne_nil (l : List Char) (h : l ≠ []) : commaRev l ≠ [] := by
  induction l using commaRev.induct with
  | case1 d1 d2 d3 d4 rest ih => rw [commaRev]; simp
  | case2 l hshape => rw [commaRev] <;> first | exact h | exact hshape

theorem commaNat_chars (n : Nat) (c : Char) (hc : c ∈ commaNat n) :
    isDigitComma c = true := by
  unfold commaNat at hc
  rw [List.mem_reverse] at hc
  rcases commaRev_mem _ _ hc with hm | hm
  · rw [List.mem_reverse] at hm
    simp [isDigitComma, natDigits_digits n c hm]
  · simp [isDigitComma, hm]

theorem commaNat_ne_nil (n : Nat) : commaNat n ≠ [] := by
  unfold commaNat
  intro h
  rw [List.reverse_eq_nil_iff] at h
  exact commaRev_ne_nil _ (by simp [natDigits_ne_nil]) h

theorem commaInt_data (i : Int) (h0 : 0 ≤ i) :
    (commaInt i).data = commaNat i.natAbs := by
  unfold commaInt
  rw [if_neg (by omega)]

theorem commaInt_chars (i : Int) (h0 : 0 ≤ i) (c : Char)
    (hc : c ∈ (commaInt i).data) : isDigitComma c = true := by
  rw [commaInt_data i h0] at hc
  exact commaNat_chars _ _ hc

theorem commaInt_ne_nil (i : Int) (h0 : 0 ≤ i) : (commaInt i).data ≠ [] := by
  rw [commaInt_data i h0]
  exact commaNat_ne_nil _

/-! ## Evaluating the lines-of-code regex on a well-formed value -/

theorem matchToks_grp_last (d : List Char) (hd : d ≠ [])
    (hda : ∀ c ∈ d, isDigitComma c = true) :
    matchToks [Tok.grp, Tok.lit " )".data] (d ++ ' ' :: ')' :: []) =
      some ([d], []) := by
  obtain ⟨c, rs, hrev⟩ : ∃ c rs, d.reverse = c :: rs := by
    cases hr : d.reverse with
    | nil => exact absurd (List.reverse_eq_nil_iff.1 hr) hd
    | cons c rs => exact ⟨c, rs, rfl⟩
  rw [matchToks,
    takeWhile_append_of_all _ _ _ _ hda (by decide),
    dropWhile_append_of_all _ _ _ _ hda (by decide),
    hrev, splitsAux, List.findSome?_cons]
  have hinner : matchToks [Tok.lit " )".data] (' ' :: ')' :: []) =
      some ([], []) := by decide
  simp only [hinner]
  rw [← hrev, List.reverse_reverse]

theorem matchToks_grp_mid (a d : List Char) (ha : a ≠ [])
    (haa : ∀ c ∈ a, isDigitComma c = true) (hd : d ≠ [])
    (hda : ∀ c ∈ d, isDigitComma c = true) :
    matchToks [Tok.grp, Tok.lit ", -".data, Tok.grp, Tok.lit " )".data]
      (a ++ ',' :: ' ' :: '-' :: (d ++ ' ' :: ')' :: [])) =
      some ([a, d], []) := by
  obtain ⟨c, rs, hrev⟩ : ∃ c rs, a.reverse = c :: rs := by
    cases hr : a.reverse with
    | nil => exact absurd (List.reverse_eq_nil_iff.1 hr) ha
    | cons c rs => exact ⟨c, rs, rfl⟩
  have hcl : ∀ x ∈ a ++ [','], isDigitComma x = true := by
    intro x hx
    rcases List.mem_append.1 hx with hm | hm
    · exact haa x hm
    · rcases List.mem_singleton.1 hm with rfl
      decide
  have hre : a ++ ',' :: ' ' :: '-' :: (d ++ ' ' :: ')' :: []) =
      (a ++ [',']) ++ ' ' :: '-' :: (d ++ ' ' :: ')' :: []) := by
    simp
  rw [matchToks, hre,
    takeWhile_append_of_all _ _ _ _ hcl (by decide),
    dropWhile_append_of_all _ _ _ _ hcl (by decide)]
  have hrev2 : (a ++ [',']).reverse = ',' :: c :: rs := by
    rw [List.reverse_append, hrev]
    rfl
  rw [hrev2, splitsAux, List.findSome?_cons]
  have hfail : matchToks [Tok.lit ", -".data, Tok.grp, Tok.lit " )".data]
      (' ' :: '-' :: (d ++ ' ' :: ')' :: [])) = none := by
    rw [matchToks, stripLit_cons_ne _ _ _ _ (by decide)]
  simp only [hfail]
  rw [splitsAux, List.findSome?_cons]
  have hok : matchToks [Tok.lit ", -".data, Tok.grp, Tok.lit " )".data]
      (',' :: ' ' :: '-' :: (d ++ ' ' :: ')' :: [])) = some ([d], []) := by
    rw [matchToks]
    have : stripLit ", -".data (',' :: ' ' :: '-' :: (d ++ ' ' :: ')' :: [])) =
        some (d ++ ' ' :: ')' :: []) :=
      stripLit_self_append ", -".data (d ++ ' ' :: ')' :: [])
    rw [this]
    exact matchToks_grp_last d hd hda
  simp only [hok]
  rw [← hrev, List.reverse_reverse]

theorem matchToks_loc (t a d : List Char) (ht : t ≠ [])
    (hta : ∀ c ∈ t, isDigitComma c = true) (ha : a ≠ [])
    (haa : ∀ c ∈ a, isDigitComma c = true) (hd : d ≠ [])
    (hda : ∀ c ∈ d, isDigitComma c = true) :
    matchToks locPattern
      (t ++ ' ' :: '(' :: ' ' :: '+' ::
        (a ++ ',' :: ' ' :: '-' :: (d ++ ' ' :: ')' :: []))) =
      some ([t, a, d], []) := by
  obtain ⟨c, rs, hrev⟩ : ∃ c rs, t.reverse = c :: rs := by
    cases hr : t.reverse with
    | nil => exact absurd (List.reverse_eq_nil_iff.1 hr) ht
    | cons c rs => exact ⟨c, rs, rfl⟩
  rw [locPattern, matchToks,
    takeWhile_append_of_all _ _ _ _ hta (by decide),
    dropWhile_append_of_all _ _ _ _ hta (by decide),
    hrev, splitsAux, List.findSome?_cons]
  have hok : matchToks
      [Tok.lit " ( +".data, Tok.grp, Tok.lit ", -".data, Tok.grp,
        Tok.lit " )".data]
      (' ' :: '(' :: ' ' :: '+' ::
        (a ++ ',' :: ' ' :: '-' :: (d ++ ' ' :: ')' :: []))) =
      some ([a, d], []) := by
    rw [matchToks]
    have : stripLit " ( +".data
        (' ' :: '(' :: ' ' :: '+' ::
          (a ++ ',' :: ' ' :: '-' :: (d ++ ' ' :: ')' :: []))) =
        some (a ++ ',' :: ' ' :: '-' :: (d ++ ' ' :: ')' :: [])) :=
      stripLit_self_append " ( +".data _
    rw [this]
    exact matchToks_grp_mid a d ha haa hd hda
  simp only [hok]
  rw [← hrev, List.reverse_reverse]

theorem searchToks_loc (t a d : List Char) (ht : t ≠ [])
    (hta : ∀ c ∈ t, isDigitComma c = true) (ha : a ≠ [])
    (haa : ∀ c ∈ a, isDigitComma c = true) (hd : d ≠ [])
    (hda : ∀ c ∈ d, isDigitComma c = true) :
    searchToks locPattern
      (t ++ ' ' :: '(' :: ' ' :: '+' ::
        (a ++ ',' :: ' ' :: '-' :: (d ++ ' ' :: ')' :: []))) =
      some [t, a, d] := by
  have hm := matchToks_loc t a d ht hta ha haa hd hda
  cases t with
  | nil => exact absurd rfl ht
  | cons c ts =>
    rw [List.cons_append] at hm ⊢
    rw [searchToks, hm]

/-! ## Claim C5: the lines-of-code line -/

/-- Place segments left to right: each segment's x offset is the start
offset plus the character count of all preceding segments times the
character advance `char_width = font_size * 0.6` (in tenths). -/
def placeSegs (x : Int) : List (String × String) → List (Int × String × String)
  | [] => []
  | (cls, txt) :: rest =>
    (x, cls, txt) :: placeSegs (x + charWidthTenths * (txt.length : Int)) rest

/-- The segment list claim C5 describes for cumulative values `T`, `A`,
`D`: text content `"Lines of Code:" ++ dots ++ "<total> ( +<added>,
-<deleted> )"` split into gray/green/gray/red/gray segments, the whole
line centered (`start_x = (width·10 − char_width·char_count)/2` in
tenths), successive segments advanced by their predecessors' character
counts. -/
def locSegsSpec (T A D : Int) : List (Int × String × String) :=
  let t := commaInt T
  let a := commaInt A
  let d := commaInt D
  let v := t ++ " ( +" ++ a ++ ", -" ++ d ++ " )"
  let pfx := locKey ++ " " ++ locDots v ++ " " ++ t ++ " ( "
  let full := pfx ++ ("+" ++ a) ++ ", " ++ ("-" ++ d) ++ " )"
  placeSegs (((widthConst : Int) * 10 - charWidthTenths * (full.length : Int)) / 2)
    [("gray", pfx), ("green", "+" ++ a), ("gray", ", "), ("red", "-" ++ d),
     ("gray", " )")]

theorem removeAll_nil (p : Char) (ps : List Char) :
    removeAll (p :: ps) [] = [] := by
  rw [removeAll]

theorem removeAll_cons_of_none (p : Char) (ps : List Char) (c : Char)
    (cs : List Char) (h : stripLit (p :: ps) (c :: cs) = none) :
    removeAll (p :: ps) (c :: cs) = c :: removeAll (p :: ps) cs := by
  rw [removeAll_cons, h]

theorem removeAll_cons_of_some (p : Char) (ps : List Char) (c : Char)
    (cs rest : List Char) (h : stripLit (p :: ps) (c :: cs) = some rest) :
    removeAll (p :: ps) (c :: cs) = removeAll (p :: ps) rest := by
  rw [removeAll_cons, h]

theorem isDigitComma_ne_underscore (c : Char) (h : isDigitComma c = true) :
    ¬ c = '_' := by
  intro hc
  subst hc
  simp [isDigitComma] at h

theorem stripLocMarkers_wrap (v : String) (hv : ∀ c ∈ v.data, ¬ c = '_') :
    stripLocMarkers ("__LOC__" ++ v ++ "__") = v := by
  unfold stripLocMarkers
  rw [String.data_append, String.data_append, List.append_assoc]
  rw [show "__LOC__".data =
    ['_', '_', 'L', 'O', 'C', '_', '_'] from rfl]
  rw [removeAll_front]
  rw [removeAll_skip_all _ _ _ _ hv]
  rw [show "__".data = ['_', '_'] from rfl]
  rw [show removeAll ['_', '_', 'L', 'O', 'C', '_', '_'] ['_', '_'] =
      ['_', '_'] from by
    rw [removeAll_cons_of_none _ _ _ _ (by decide),
      removeAll_cons_of_none _ _ _ _ (by decide), removeAll_nil]]
  rw [removeAll_skip_all _ _ _ _ hv]
  rw [show removeAll ['_', '_'] ['_', '_'] = [] from by
    rw [removeAll_cons_of_some _ _ _ _ [] (by decide), removeAll_nil]]
  rw [List.append_nil]

theorem isLocLine_wrap (v : String) :
    isLocLine ("__LOC__" ++ v ++ "__") = true := by
  unfold isLocLine
  rw [String.data_append, String.data_append, List.append_assoc,
    stripLit_self_append]
  rfl

theorem locSegsOf_eq (T A D : Int) (hT0 : 0 ≤ T) (hA0 : 0 ≤ A)
    (hD0 : 0 ≤ D) :
    locSegsOf (commaInt T ++ " ( +" ++ commaInt A ++ ", -" ++ commaInt D ++ " )") =
      some (locSegsSpec T A D) := by
  have hdata : (commaInt T ++ " ( +" ++ commaInt A ++ ", -" ++ commaInt D ++ " )").data =
      (commaInt T).data ++ ' ' :: '(' :: ' ' :: '+' ::
        ((commaInt A).data ++ ',' :: ' ' :: '-' ::
          ((commaInt D).data ++ ' ' :: ')' :: [])) := by
    simp only [String.data_append,
      show " ( +".data = [' ', '(', ' ', '+'] from rfl,
      show ", -".data = [',', ' ', '-'] from rfl,
      show " )".data = [' ', ')'] from rfl, List.append_assoc,
      List.cons_append, List.nil_append]
  have hs := searchToks_loc (commaInt T).data (commaInt A).data (commaInt D).data
    (commaInt_ne_nil T hT0) (commaInt_chars T hT0) (commaInt_ne_nil A hA0)
    (commaInt_chars A hA0) (commaInt_ne_nil D hD0) (commaInt_chars D hD0)
  have hbranch : ∀ (t2 a2 d2 : List Char),
      searchToks locPattern
        (commaInt T ++ " ( +" ++ commaInt A ++ ", -" ++ commaInt D ++ " )").data =
        some [t2, a2, d2] →
      locSegsOf (commaInt T ++ " ( +" ++ commaInt A ++ ", -" ++ commaInt D ++ " )") =
      (let v := commaInt T ++ " ( +" ++ commaInt A ++ ", -" ++ commaInt D ++ " )"
       let dots := locDots v
       let full_line := locKey ++ " " ++ dots ++ " " ++ String.mk t2 ++ " ( +" ++
         String.mk a2 ++ ", -" ++ String.mk d2 ++ " )"
       let start_x : Int :=
         ((widthConst : Int) * 10 - charWidthTenths * (full_line.length : Int)) / 2
       let pfx := locKey ++ " " ++ dots ++ " " ++ String.mk t2 ++ " ( "
       let green_x := start_x + (pfx.length : Int) * charWidthTenths
       let green_text := "+" ++ String.mk a2
       let comma_x := green_x + (green_text.length : Int) * charWidthTenths
       let red_x := comma_x + 2 * charWidthTenths
       let red_text := "-" ++ String.mk d2
       let suffix_x := red_x + (red_text.length : Int) * charWidthTenths
       some [(start_x, "gray", pfx), (green_x, "green", green_text),
             (comma_x, "gray", ", "), (red_x, "red", red_text),
             (suffix_x, "gray", " )")]) := by
    intro t2 a2 d2 hval
    unfold locSegsOf
    rw [hval]
  rw [hbranch (commaInt T).data (commaInt A).data (commaInt D).data (by rw [hdata]; exact hs)]
  simp only [locSegsSpec, placeSegs]
  rw [show String.mk (commaInt T).data = commaInt T from rfl,
    show String.mk (commaInt A).data = commaInt A from rfl,
    show String.mk (commaInt D).data = commaInt D from rfl]
  have hlen : (locKey ++ " " ++
      locDots (commaInt T ++ " ( +" ++ commaInt A ++ ", -" ++ commaInt D ++ " )") ++
      " " ++ commaInt T ++ " ( +" ++ commaInt A ++ ", -" ++ commaInt D ++ " )").length =
      ((locKey ++ " " ++
        locDots (commaInt T ++ " ( +" ++ commaInt A ++ ", -" ++ commaInt D ++ " )") ++
        " " ++ commaInt T ++ " ( ") ++ ("+" ++ commaInt A) ++ ", " ++
        ("-" ++ commaInt D) ++ " )").length := by
    simp only [String.length_append,
      show (" ( +" : String).length = 4 from rfl,
      show (" ( " : String).length = 3 from rfl,
      show ("+" : String).length = 1 from rfl,
      show (", -" : String).length = 3 from rfl,
      show (", " : String).length = 2 from rfl,
      show ("-" : String).length = 1 from rfl,
      show (" )" : String).length = 2 from rfl]
    omega
  rw [hlen]
  simp only [Option.some.injEq, List.cons.injEq, Prod.mk.injEq,
    String.length_append, show (", " : String).length = 2 from rfl,
    charWidthTenths, fontSize, and_true, true_and]
  push_cast
  ring_nf
  simp

theorem locValue_data (T A D : Int) :
    (commaInt T ++ " ( +" ++ commaInt A ++ ", -" ++ commaInt D ++ " )").data =
      (commaInt T).data ++ ' ' :: '(' :: ' ' :: '+' ::
        ((commaInt A).data ++ ',' :: ' ' :: '-' ::
          ((commaInt D).data ++ ' ' :: ')' :: [])) := by
  simp only [String.data_append,
    show " ( +".data = [' ', '(', ' ', '+'] from rfl,
    show ", -".data = [',', ' ', '-'] from rfl,
    show " )".data = [' ', ')'] from rfl, List.append_assoc,
    List.cons_append, List.nil_append]

theorem locValueStr_eq (s : StatsRec) (T A D : Int)
    (hT : s.cum CumField.loc_total = some T)
    (hA : s.cum CumField.loc_added = some A)
    (hD : s.cum CumField.loc_deleted = some D) :
    locValueStr s =
      commaInt T ++ " ( +" ++ commaInt A ++ ", -" ++ commaInt D ++ " )" := by
  unfold locValueStr
  rw [hT, hA, hD]
  rfl

theorem locValue_no_underscore (T A D : Int) (hT0 : 0 ≤ T) (hA0 : 0 ≤ A)
    (hD0 : 0 ≤ D) :
    ∀ c ∈ (commaInt T ++ " ( +" ++ commaInt A ++ ", -" ++ commaInt D ++ " )").data,
      ¬ c = '_' := by
  rw [locValue_data]
  intro c hc
  simp only [List.mem_append, List.mem_cons] at hc
  rcases hc with h | h
  · exact isDigitComma_ne_underscore c (commaInt_chars T hT0 c h)
  · rcases h with rfl | rfl | rfl | rfl | h
    · decide
    · decide
    · decide
    · decide
    · rcases h with h | h
      · exact isDigitComma_ne_underscore c (commaInt_chars A hA0 c h)
      · rcases h with rfl | rfl | rfl | h
        · decide
        · decide
        · decide
        · rcases h with h | h
          · exact isDigitComma_ne_underscore c (commaInt_chars D hD0 c h)
          · rcases h with rfl | rfl | h
            · decide
            · decide
            · exact absurd h (List.not_mem_nil c)

theorem segsText_concat (T A D : Int) :
    (locSegsSpec T A D).foldr (fun seg acc => seg.2.2 ++ acc) "" =
      locKey ++ " " ++
        locDots (commaInt T ++ " ( +" ++ commaInt A ++ ", -" ++ commaInt D ++ " )") ++
        " " ++ (commaInt T ++ " ( +" ++ commaInt A ++ ", -" ++ commaInt D ++ " )") := by
  simp only [locSegsSpec, placeSegs, List.foldr]
  apply String.ext
  simp only [String.data_append,
    show " ( +".data = [' ', '(', ' ', '+'] from rfl,
    show " ( ".data = [' ', '(', ' '] from rfl,
    show "+".data = ['+'] from rfl,
    show ", -".data = [',', ' ', '-'] from rfl,
    show ", ".data = [',', ' '] from rfl,
    show "-".data = ['-'] from rfl,
    show " )".data = [' ', ')'] from rfl,
    show ("" : String).data = [] from rfl,
    List.append_assoc, List.cons_append, List.nil_append, List.append_nil]

theorem renderLineStr_loc (s : StatsRec) (T A D : Int) (y : Nat)
    (hT : s.cum CumField.loc_total = some T)
    (hA : s.cum CumField.loc_added = some A)
    (hD : s.cum CumField.loc_deleted = some D)
    (hT0 : 0 ≤ T) (hA0 : 0 ≤ A) (hD0 : 0 ≤ D) :
    renderLineStr ("__LOC__" ++ locValueStr s ++ "__") "loc" y =
      renderLoc (locValueStr s) y := by
  have hvs := locValueStr_eq s T A D hT hA hD
  have hv : ∀ c ∈ (locValueStr s).data, ¬ c = '_' := by
    rw [hvs]
    exact locValue_no_underscore T A D hT0 hA0 hD0
  unfold renderLineStr
  rw [isLocLine_wrap, stripLocMarkers_wrap _ hv]
  simp

/-- C5: for every stats record whose lines-of-code fields are non-negative
(so that their comma-grouped renderings are well-formed digit groups), the
rendered lines-of-code line splits into the claimed colored segments
(`locSegsSpec`: classes gray/green/gray/red/gray, the `+added` segment
green and the `-deleted` segment red, the line centered via
`start_x = (width·char_width−…)/2` and each segment offset by the
character count of all preceding segments times `char_width =
font_size·0.6`), the concatenated text content is
`"Lines of Code:" ++ dots ++ "<total> ( +<added>, -<deleted> )"`, and the
generated document contains the rendered segments at the line's constant
y = 790. -/
theorem loc_line_rendering (s : StatsRec) (T A D : Int)
    (hT : s.cum CumField.loc_total = some T)
    (hA : s.cum CumField.loc_added = some A)
    (hD : s.cum CumField.loc_deleted = some D)
    (hT0 : 0 ≤ T) (hA0 : 0 ≤ A) (hD0 : 0 ≤ D) (mode date : String) :
    locSegsOf (locValueStr s) = some (locSegsSpec T A D) ∧
    (locSegsSpec T A D).foldr (fun seg acc => seg.2.2 ++ acc) "" =
      locKey ++ " " ++ locDots (locValueStr s) ++ " " ++ locValueStr s ∧
    (∃ pre post : String, generate_svg mode s date =
      pre ++ renderLoc (locValueStr s) 790 ++ post) := by
  have hvs := locValueStr_eq s T A D hT hA hD
  refine ⟨?_, ?_, ?_⟩
  · rw [hvs]
    exact locSegsOf_eq T A D hT0 hA0 hD0
  · rw [hvs]
    exact segsText_concat T A D
  · have h0 : generate_svg mode s date =
        svgHeader (colorsFor mode) 1010 ++
          renderBody (mkLinesA s ++
            (locLineEntry s :: (mkLinesB0 ++ [dateLineEntry date]))) 30 ++
          "</svg>" := by
      rw [generate_svg, heightOf_const]
      rfl
    have hcons : renderBody
        (locLineEntry s :: (mkLinesB0 ++ [dateLineEntry date])) 790 =
        renderLineStr ("__LOC__" ++ locValueStr s ++ "__") "loc" 790 ++
          renderBody (mkLinesB0 ++ [dateLineEntry date]) 810 := rfl
    refine ⟨svgHeader (colorsFor mode) 1010 ++ renderBody (mkLinesA s) 30,
      renderBody (mkLinesB0 ++ [dateLineEntry date]) 810 ++ "</svg>", ?_⟩
    rw [h0, renderBody_append, advance_mkLinesA, hcons,
      renderLineStr_loc s T A D 790 hT hA hD hT0 hA0 hD0]
    simp [String.append_assoc]

/-- The scenario stats record of the spec (stars 42; loc total 800, added 1000, deleted 200). -/
def statsW : StatsRec :=
  ⟨{ public_repos := 3, private_repos := 1, total_repos := 4
     total_stars := 42, total_forks := 7, members := 2
     languages := ["Go", "Python"] },
   fun k => match k with
   | CumField.total_commits => some 500
   | CumField.total_prs => some 10
   | CumField.total_issues => some 5
   | CumField.loc_added => some 1000
   | CumField.loc_deleted => some 200
   | CumField.loc_total => some 800⟩

/-- Witness for C5 at the spec's scenario record. -/
theorem loc_line_rendering_witness :
    statsW.cum CumField.loc_total = some 800 ∧
    (0 : Int) ≤ 800 ∧ (0 : Int) ≤ 1000 ∧ (0 : Int) ≤ 200 ∧
    (locSegsOf (locValueStr statsW) = some (locSegsSpec 800 1000 200) ∧
     (locSegsSpec 800 1000 200).foldr (fun seg acc => seg.2.2 ++ acc) "" =
       locKey ++ " " ++ locDots (locValueStr statsW) ++ " " ++ locValueStr statsW ∧
     (∃ pre post : String, generate_svg "dark" statsW "2026-10-12" =
       pre ++ renderLoc (locValueStr statsW) 790 ++ post)) :=
  ⟨rfl, by decide, by decide, by decide,
   loc_line_rendering statsW 800 1000 200 rfl rfl rfl (by decide) (by decide)
     (by decide) "dark" "2026-10-12"⟩

/-! ## Claim C8: the art-focused variant's run-splitting

Modelled from the spec: the repository's second, art-focused variant
(spec section 2 counts two variants; only `generate_svg.py` is under
`src/`) renders block-art character by character, grouping consecutive
characters of identical semantic class into minimal-count colored runs
(spec section 4.3: `#` → solid, `+`/`-` → mid, `.` → dim, space → skip),
each run positioned at `start_x + index·char_width`. -/

/-- The semantic color classes of the art-focused variant. -/
inductive CharKind
  | solid
  | mid
  | dim
  deriving DecidableEq

/-- Modelled from the spec: the character classification of the
art-focused variant's renderer (`#` → solid, `+`/`-` → mid, `.` → dim,
space → skip = `none`). -/
def classifyArt (c : Char) : Option CharKind :=
  if c = '#' then some CharKind.solid
  else if c = '+' then some CharKind.mid
  else if c = '-' then some CharKind.mid
  else if c = '.' then some CharKind.dim
  else none

theorem length_dropWhile_le' (p : Char → Bool) (l : List Char) :
    (l.dropWhile p).length ≤ l.length :=
  (List.dropWhile_sublist p).length_le

/-- Modelled from the spec: split one block-art line into maximal runs of
identically-classified characters, skipping spaces; each run carries its
start index (the run is positioned at `start_x + index·char_width`). -/
def artRuns (i : Nat) (l : List Char) : List (Nat × CharKind × List Char) :=
  match l with
  | [] => []
  | c :: cs =>
    match classifyArt c with
    | none => artRuns (i + 1) cs
    | some k =>
      (i, k, c :: cs.takeWhile (fun d => classifyArt d == some k)) ::
        artRuns (i + (c :: cs.takeWhile (fun d => classifyArt d == some k)).length)
          (cs.dropWhile (fun d => classifyArt d == some k))
termination_by l.length
decreasing_by
  · simp
  · exact Nat.lt_of_le_of_lt (length_dropWhile_le' _ _) (by simp)

theorem classifyArt_some_ne_space (c : Char) (k : CharKind)
    (h : classifyArt c = some k) : (c != ' ') = true := by
  unfold classifyArt at h
  by_cases h1 : c = '#'
  · subst h1; decide
  · by_cases h2 : c = '+'
    · subst h2; decide
    · by_cases h3 : c = '-'
      · subst h3; decide
      · by_cases h4 : c = '.'
        · subst h4; decide
        · rw [if_neg h1, if_neg h2, if_neg h3, if_neg h4] at h
          exact absurd h (by simp)

theorem art_runs_concat_aux (n : Nat) :
    ∀ (line : List Char), line.length ≤ n →
      (∀ c ∈ line, c = '#' ∨ c = '+' ∨ c = '-' ∨ c = '.' ∨ c = ' ') →
      ∀ i : Nat,
        (artRuns i line).foldr (fun r acc => r.2.2 ++ acc) [] =
          line.filter (fun c => c != ' ') := by
  induction n with
  | zero =>
    intro line hlen _ i
    have : line = [] := List.eq_nil_of_length_eq_zero (Nat.le_zero.mp hlen)
    subst this
    rw [artRuns]
    rfl
  | succ n ihn =>
    intro line hlen halpha i
    match line, hlen, halpha with
    | [], _, _ =>
      rw [artRuns]
      rfl
    | c :: cs, hlen, halpha =>
      have hlen' : cs.length ≤ n := Nat.le_of_succ_le_succ hlen
      have halpha' : ∀ x ∈ cs, x = '#' ∨ x = '+' ∨ x = '-' ∨ x = '.' ∨ x = ' ' :=
        fun x hx => halpha x (List.mem_cons_of_mem c hx)
      cases hcl : classifyArt c with
      | none =>
        have hcsp : c = ' ' := by
          rcases halpha c (List.mem_cons_self c cs) with h | h | h | h | h <;>
            subst h <;> first | rfl | simp [classifyArt] at hcl
        rw [artRuns, hcl]
        subst hcsp
        rw [List.filter_cons_of_neg
          (p := fun x => x != ' ') (a := ' ') (l := cs) (by decide)]
        exact ihn cs hlen' halpha' (i + 1)
      | some k =>
        rw [artRuns, hcl]
        simp only [List.foldr_cons, List.cons_append]
        have hg : (c != ' ') = true := classifyArt_some_ne_space c k hcl
        rw [List.filter_cons_of_pos (p := fun x => x != ' ') (l := cs) hg]
        congr 1
        have htake : ∀ x ∈ cs.takeWhile (fun d => classifyArt d == some k),
            (x != ' ') = true := by
          intro x hx
          have hp := List.mem_takeWhile_imp hx
          simp only [beq_iff_eq] at hp
          exact classifyArt_some_ne_space x k hp
        have hrec := ihn (cs.dropWhile (fun d => classifyArt d == some k))
          (Nat.le_trans (length_dropWhile_le' _ _) hlen')
          (fun x hx => halpha'
            x ((List.dropWhile_sublist (fun d => classifyArt d == some k)).mem hx))
          (i + (c :: cs.takeWhile (fun d => classifyArt d == some k)).length)
        rw [hrec]
        conv_rhs =>
          rw [← List.takeWhile_append_dropWhile
            (p := fun d => classifyArt d == some k) (l := cs)]
        rw [List.filter_append, List.filter_eq_self.mpr htake]

/-- C8 (spec-modelled): for every block-art line over the art alphabet
(`#`, `+`, `-`, `.`, space), the concatenation of the text content of all
colored runs generated for that line, in document order, equals the
original line with its whitespace characters omitted — no character is
lost or duplicated by the run-splitting into semantic color classes. -/
theorem art_runs_concat (line : List Char)
    (halpha : ∀ c ∈ line,
      c = '#' ∨ c = '+' ∨ c = '-' ∨ c = '.' ∨ c = ' ') (i : Nat) :
    (artRuns i line).foldr (fun r acc => r.2.2 ++ acc) [] =
      line.filter (fun c => c != ' ') :=
  art_runs_concat_aux line.length line (Nat.le_refl _) halpha i

/-- Witness for C8 at a concrete art line. -/
theorem art_runs_concat_witness :
    (∀ c ∈ "##..++  --##".data,
      c = '#' ∨ c = '+' ∨ c = '-' ∨ c = '.' ∨ c = ' ') ∧
    (artRuns 0 "##..++  --##".data).foldr (fun r acc => r.2.2 ++ acc) [] =
      "##..++  --##".data.filter (fun c => c != ' ') :=
  ⟨by decide, art_runs_concat "##..++  --##".data (by decide) 0⟩
